import Mathlib

/-
Verification development for the S3 image-processing worker
(src/terraform/modules/lambda_images/src/image_processor.py).

The Python source is shallowly embedded below: pure helpers become Lean
functions, the Lambda handler becomes explicit state passing over a state
record (S3 store, DynamoDB table, /tmp scratch files, a clock), and every
fallible step returns Except.  Machine arithmetic is modelled exactly over
Nat/Int (Python's integers are unbounded; the float divisions inside
Pillow's size computation are modelled by exact rational comparisons,
which agree with IEEE doubles at the magnitudes involved).
-/

namespace ImgPipe

/-- An image as the pipeline observes it: pixel dimensions plus an abstract
payload distinguishing picture contents.  Byte-level encodings are not
modelled; only dimensions and identity of content matter to the claims. -/
structure Img where
  width : Nat
  height : Nat
  data : Nat
deriving DecidableEq

/-- Embeds the dimension choice of Pillow's Image.thumbnail when the target
box edge is y = T and the width is the scaled side (taken when the image is
portrait or square, W <= H): Pillow computes floor and ceil of T*W/H and
keeps whichever is closer to the aspect ratio W/H (floor on ties), clamped
to at least 1.  The float comparison abs(W/H - n/T) is carried out here
exactly, cross-multiplied by H*T. -/
def roundAspectH (W H T : Nat) : Nat :=
  let f := T * W / H
  let c := (T * W + H - 1) / H
  max (if T * W - f * H ≤ c * H - T * W then f else c) 1

/-- Embeds the dimension choice of Pillow's Image.thumbnail when the target
box edge is x = T and the height is the scaled side (taken when W > H):
floor and ceil of T*H/W, keeping whichever is closer to the aspect ratio
(the float comparison abs(W/H - T/n) is cross-multiplied by the positive
quantity H*f*c; Pillow's special key value 0 at n = 0 coincides with this
choice because the ceiling is then 1), clamped to at least 1. -/
def roundAspectW (W H T : Nat) : Nat :=
  let f := T * H / W
  let c := (T * H + W - 1) / W
  max (if (T * H - W * f) * c ≤ (W * c - T * H) * f then f else c) 1

/-- Embeds the size computation of Pillow's Image.thumbnail for the square
box (T, T), which resize_image invokes as image.thumbnail((width, width))
(image_processor.py line 62): an image already inside the box is left
untouched; otherwise the tighter dimension is pinned to T and the other is
scaled by the aspect ratio. -/
def thumbnailSize (W H T : Nat) : Nat × Nat :=
  if W ≤ T ∧ H ≤ T then (W, H)
  else if W ≤ H then (roundAspectH W H T, T)
  else (T, roundAspectW W H T)

/-- The model of resize_image (image_processor.py lines 54-64): dimensions
from Pillow's thumbnail box (t, t), picture content preserved.  The file is
re-saved regardless of whether the dimensions changed. -/
def resizeImage (img : Img) (t : Int) : Img :=
  let p := thumbnailSize img.width img.height t.toNat
  { width := p.1, height := p.2, data := img.data }

lemma lt_div_mul_add (a d : Nat) (hd : 1 ≤ d) : a < a / d * d + d := by
  have h1 := Nat.div_add_mod a d
  have h2 := Nat.mod_lt a (show 0 < d from hd)
  have h3 : d * (a / d) = a / d * d := Nat.mul_comm _ _
  linarith

lemma ceil_le_mul (a d : Nat) (hd : 1 ≤ d) : a ≤ (a + d - 1) / d * d := by
  have h0 : a + d - 1 + 1 = a + d := by omega
  have h1 := lt_div_mul_add (a + d - 1) d hd
  have h2 : a + d - 1 + 1 ≤ (a + d - 1) / d * d + d := Nat.succ_le_of_lt h1
  rw [h0] at h2
  exact Nat.le_of_add_le_add_right h2

lemma ceil_mul_lt (a d : Nat) (hd : 1 ≤ d) (ha : 1 ≤ a) :
    (a + d - 1) / d * d < a + d := by
  have h1 : (a + d - 1) / d * d ≤ a + d - 1 := Nat.div_mul_le_self _ d
  have h2 : a + d - 1 < a + d := by omega
  exact lt_of_le_of_lt h1 h2

lemma pick_bound (a d v : Nat) (ha : 1 ≤ a) (hd : 1 ≤ d)
    (hv : v = max (a / d) 1 ∨ v = max ((a + d - 1) / d) 1) :
    |(v : Int) * d - a| ≤ (d : Int) := by
  have hfl : a / d * d ≤ a := Nat.div_mul_le_self a d
  have hfu : a < a / d * d + d := lt_div_mul_add a d hd
  have hcl : a ≤ (a + d - 1) / d * d := ceil_le_mul a d hd
  have hcu : (a + d - 1) / d * d < a + d := ceil_mul_lt a d hd ha
  rcases hv with rfl | rfl
  · rcases Nat.eq_zero_or_pos (a / d) with h0 | h0
    · rw [h0] at hfu ⊢
      have h1 : a < d := by simpa using hfu
      have h1' : (a : Int) < d := by exact_mod_cast h1
      have ha' : (1 : Int) ≤ a := by exact_mod_cast ha
      have hm : max (0 : Nat) 1 = 1 := by decide
      rw [hm, abs_le]
      constructor
      · push_cast
        linarith
      · push_cast
        linarith
    · have h2 : ((a / d : Nat) : Int) * d ≤ a := by exact_mod_cast hfl
      have h3 : (a : Int) < ((a / d : Nat) : Int) * d + d := by exact_mod_cast hfu
      rw [max_eq_left h0, abs_le]
      constructor
      · linarith
      · linarith
  · have hc1 : 1 ≤ (a + d - 1) / d := by
      by_contra hcon
      push_neg at hcon
      have h0 : (a + d - 1) / d = 0 := Nat.lt_one_iff.mp hcon
      rw [h0] at hcl
      simp at hcl
      omega
    have h2 : (a : Int) ≤ (((a + d - 1) / d : Nat) : Int) * d := by exact_mod_cast hcl
    have h3 : (((a + d - 1) / d : Nat) : Int) * d < (a : Int) + d := by exact_mod_cast hcu
    rw [max_eq_left hc1, abs_le]
    constructor
    · linarith
    · linarith

lemma roundAspectH_le (W H T : Nat) (hW : 1 ≤ W) (hWH : W ≤ H) (hH : 1 ≤ H)
    (hT : 1 ≤ T) : roundAspectH W H T ≤ T := by
  simp only [roundAspectH]
  have hf : T * W / H ≤ T := by
    have h1 : T * W ≤ T * H := Nat.mul_le_mul (Nat.le_refl T) hWH
    calc T * W / H ≤ T * H / H := Nat.div_le_div_right h1
      _ = T * (H / H) := Nat.mul_div_assoc T (dvd_refl H)
      _ = T := by rw [Nat.div_self (show 0 < H from hH), Nat.mul_one]
  have hc : (T * W + H - 1) / H ≤ T := by
    have h2 : (T * W + H - 1) / H * H < T * W + H :=
      ceil_mul_lt (T * W) H hH (Nat.mul_pos hT hW)
    have h3 : T * W + H ≤ (T + 1) * H := by
      have := Nat.mul_le_mul (Nat.le_refl T) hWH
      nlinarith
    have h4 : (T * W + H - 1) / H * H < (T + 1) * H := lt_of_lt_of_le h2 h3
    have h5 : (T * W + H - 1) / H < T + 1 := by
      by_contra hcon
      push_neg at hcon
      have h6 : (T + 1) * H ≤ (T * W + H - 1) / H * H := Nat.mul_le_mul_right H hcon
      exact absurd h4 (not_lt.mpr h6)
    omega
  refine max_le ?_ hT
  split
  · exact hf
  · exact hc

lemma roundAspectH_bound (W H T : Nat) (hW : 1 ≤ W) (hH : 1 ≤ H) (hT : 1 ≤ T) :
    |(roundAspectH W H T : Int) * H - (T : Int) * W| ≤ (H : Int) := by
  have h := pick_bound (T * W) H (roundAspectH W H T) (Nat.mul_pos hT hW) hH
    (by simp only [roundAspectH]
        split
        · exact Or.inl rfl
        · exact Or.inr rfl)
  have hc : ((T * W : Nat) : Int) = (T : Int) * W := by push_cast; ring
  rw [hc] at h
  exact h

lemma roundAspectW_bound (W H T : Nat) (hW : 1 ≤ W) (hH : 1 ≤ H) (hT : 1 ≤ T) :
    |(roundAspectW W H T : Int) * W - (T : Int) * H| ≤ (W : Int) := by
  have h := pick_bound (T * H) W (roundAspectW W H T) (Nat.mul_pos hT hH) hW
    (by simp only [roundAspectW]
        split
        · exact Or.inl rfl
        · exact Or.inr rfl)
  have hc : ((T * H : Nat) : Int) = (T : Int) * H := by push_cast; ring
  rw [hc] at h
  exact h

lemma thumb_aspect (W H T : Nat) (hW : 1 ≤ W) (hH : 1 ≤ H) (hT : 1 ≤ T)
    (hTW : T < W) :
    (thumbnailSize W H T).1 ≤ T ∧
      (((thumbnailSize W H T).1 = T ∧
          |((thumbnailSize W H T).2 : Int) * W - (T : Int) * H| ≤ (W : Int)) ∨
       ((thumbnailSize W H T).2 = T ∧
          |((thumbnailSize W H T).1 : Int) * H - (T : Int) * W| ≤ (H : Int))) := by
  unfold thumbnailSize
  have hWT : ¬(W ≤ T ∧ H ≤ T) := by
    intro h
    omega
  rw [if_neg hWT]
  by_cases hWH : W ≤ H
  · rw [if_pos hWH]
    refine ⟨roundAspectH_le W H T hW hWH hH hT, Or.inr ⟨rfl, ?_⟩⟩
    exact roundAspectH_bound W H T hW hH hT
  · rw [if_neg hWH]
    exact ⟨Nat.le_refl T, Or.inl ⟨rfl, roundAspectW_bound W H T hW hH hT⟩⟩

/-- Hexadecimal digit value, as used by URL percent-decoding. -/
def hexVal? (ch : Char) : Option Nat :=
  if '0' ≤ ch ∧ ch ≤ '9' then some (ch.toNat - 48)
  else if 'a' ≤ ch ∧ ch ≤ 'f' then some (ch.toNat - 87)
  else if 'A' ≤ ch ∧ ch ≤ 'F' then some (ch.toNat - 55)
  else none

/-- Character-level worker for urllib.parse.unquote_plus: a plus sign becomes
a space, a percent sign followed by two hex digits becomes the coded
character, and anything else passes through.  Python decodes percent escapes
per UTF-8 byte; this model is exact on ASCII, the range the key claims
exercise. -/
def unquoteChars : List Char → List Char
  | [] => []
  | '+' :: rest => ' ' :: unquoteChars rest
  | '%' :: a :: b :: rest =>
    match hexVal? a, hexVal? b with
    | some hi, some lo => Char.ofNat (16 * hi + lo) :: unquoteChars rest
    | _, _ => '%' :: unquoteChars (a :: b :: rest)
  | ch :: rest => ch :: unquoteChars rest

/-- Model of unquote_plus (image_processor.py line 84). -/
def unquotePlus (s : String) : String := String.mk (unquoteChars s.toList)

/-- The Loop Guard: object_key.startswith(DESTINATION_PREFIX)
(image_processor.py line 88). -/
def shouldSkip (objectKey dest : String) : Bool :=
  List.isPrefixOf dest.toList objectKey.toList

/-- Worker for os.path.basename: keep the characters after the last slash. -/
def basenameChars : List Char → List Char → List Char
  | [], acc => acc.reverse
  | '/' :: rest, _ => basenameChars rest []
  | ch :: rest, acc => basenameChars rest (ch :: acc)

/-- Model of os.path.basename (image_processor.py line 96): keys are
hierarchical strings with slash as the separator. -/
def basename (s : String) : String := String.mk (basenameChars s.toList [])

/-- Model of str.rstrip for the single character slash
(image_processor.py line 108). -/
def rstripSlash (s : String) : String :=
  String.mk ((s.toList.reverse.dropWhile (fun ch => ch == '/')).reverse)

/-- The /tmp download path: os.path.join of /tmp with the base name, which
contains no slash (image_processor.py line 97). -/
def downloadPathOf (fileName : String) : String := "/tmp/" ++ fileName

/-- The /tmp output path for the resized copy (image_processor.py line 98). -/
def uploadPathOf (fileName : String) : String := "/tmp/resized-" ++ fileName

/-- Substring membership worker, used to inspect error messages. -/
def containsChars (needle : List Char) : List Char → Bool
  | [] => needle.isEmpty
  | ch :: rest => List.isPrefixOf needle (ch :: rest) || containsChars needle rest

/-- Whether the string needle occurs inside hay. -/
def containsStr (hay needle : String) : Bool := containsChars needle.toList hay.toList

/-- Accumulating decimal reader for the digits of an integer literal. -/
def digitsValAux : List Char → Nat → Option Nat
  | [], acc => some acc
  | ch :: rest, acc =>
    if ch.isDigit then digitsValAux rest (10 * acc + (ch.toNat - 48)) else none

/-- Value of a nonempty all-digit character list. -/
def digitsVal? : List Char → Option Nat
  | [] => none
  | l => digitsValAux l 0

/-- Strip leading and trailing whitespace, as str.strip or int() do. -/
def pyStripChars (l : List Char) : List Char :=
  ((l.dropWhile Char.isWhitespace).reverse.dropWhile Char.isWhitespace).reverse

/-- Model of Python int(str) for plain decimal literals with an optional
sign and surrounding whitespace (image_processor.py line 36); none models
the ValueError raised on anything else. -/
def pyInt? (s : String) : Option Int :=
  match pyStripChars s.toList with
  | '+' :: rest => (digitsVal? rest).map (fun n => (n : Int))
  | '-' :: rest => (digitsVal? rest).map (fun n => -(n : Int))
  | l => (digitsVal? l).map (fun n => (n : Int))

/-- The resolved configuration held by the warm process
(image_processor.py lines 35-37). -/
structure Config where
  DESTINATION_PREF : String
  TARGET_WIDTH : Int
  TABLE_NAME : String
deriving DecidableEq

/-- Errors the module can raise at import time: the KeyError from
os.environ['TARGET_WIDTH'] and the ValueError raised either by int() or by
the aggregate startup sanity check. -/
inductive StartupErr where
  | keyErr (name : String)
  | valueErr (msg : String)
deriving DecidableEq

/-- Message text carried by a startup error. -/
def startupErrText : StartupErr → String
  | .keyErr name => name
  | .valueErr msg => msg

/-- Python truthiness of an optional string: missing and empty are falsy. -/
def pyTruthy : Option String → Bool
  | none => false
  | some s => !(s == "")

/-- Python str.join with a comma-space separator. -/
def joinComma : List String → String
  | [] => ""
  | [x] => x
  | x :: y :: rest => x ++ ", " ++ joinComma (y :: rest)

/-- Model of the module import sequence (image_processor.py lines 35-52):
read DESTINATION_PREFIX with a default, read TARGET_WIDTH with a KeyError
on absence and parse it with int(), read DYNAMODB_TABLE_NAME with a
default, then collect the falsy ones of the latter two names into a list
(table first) and raise one ValueError naming all of the collected. -/
def startup (env : String → Option String) : Except StartupErr Config :=
  let dp := env ("DESTINATION_PREFIX")
  match env ("TARGET_WIDTH") with
  | none => .error (.keyErr ("TARGET_WIDTH"))
  | some tw =>
    match pyInt? tw with
    | none => .error (.valueErr ("invalid literal for int(): " ++ tw))
    | some twv =>
      let tn := env ("DYNAMODB_TABLE_NAME")
      let missing :=
        (if pyTruthy tn then [] else ["DYNAMODB_TABLE_NAME"]) ++
        (if pyTruthy dp then [] else ["DESTINATION_PREFIX"])
      if missing.isEmpty then
        .ok { DESTINATION_PREF := dp.getD (""), TARGET_WIDTH := twv,
              TABLE_NAME := tn.getD ("") }
      else
        .error (.valueErr ("Missing environment variables: " ++ joinComma missing))

/-- One DynamoDB item as written by table.put_item
(image_processor.py lines 116-124). -/
structure Item where
  ImageID : String
  Status : String
  SourceKey : String
  ProcessedKey : String
  ProcessedSize : Nat
  TargetWidth : Int
  ProcessingTimestamp : Nat
deriving DecidableEq

/-- Lookup in an association list, first binding wins. -/
def mget {α β : Type} [DecidableEq α] : List (α × β) → α → Option β
  | [], _ => none
  | (k', v) :: rest, k => if k = k' then some v else mget rest k

/-- Keyed overwrite in an association list; both S3 put and DynamoDB
put_item replace whatever was stored under the key. -/
def mput {α β : Type} [DecidableEq α] (m : List (α × β)) (k : α) (v : β) :
    List (α × β) :=
  (k, v) :: m.filter (fun p => decide (p.1 ≠ k))

/-- Number of rows stored under a key. -/
def countKey {α β : Type} [DecidableEq α] (m : List (α × β)) (k : α) : Nat :=
  (m.filter (fun p => decide (p.1 = k))).length

/-- The world the handler mutates: the object store keyed by bucket and
key, the metadata table keyed by ImageID, the /tmp scratch directory, and
a clock supplying time.time() that ticks once per metadata write. -/
structure PState where
  s3 : List ((String × String) × Img)
  table : List (String × Item)
  tmp : List (String × Img)
  now : Nat
deriving DecidableEq

/-- Abstract byte size of the re-encoded output file, as observed through
os.path.getsize (image_processor.py line 114): deterministic in the saved
image. -/
def encodedSize (img : Img) : Nat := img.width * img.height + img.data

/-- One observable side effect of processing a notification, in program
order: the S3 download, the resize of the scratch file, the S3 upload, and
the DynamoDB write. -/
inductive Effect where
  | fetch (bucket key localPath : String)
  | resize (src dst : String) (width : Int)
  | publish (localPath bucket key : String)
  | record (item : Item)
deriving DecidableEq

/-- How one effect acts on the world.  Reads that the generated traces
always satisfy (a fetch of a stored object, a resize or publish of a
scratch file just written) are looked up in the current state. -/
def applyEffect (s : PState) : Effect → PState
  | .fetch b k path =>
    match mget s.s3 (b, k) with
    | some img => { s with tmp := mput s.tmp path img }
    | none => s
  | .resize src dst w =>
    match mget s.tmp src with
    | some img => { s with tmp := mput s.tmp dst (resizeImage img w) }
    | none => s
  | .publish path b k =>
    match mget s.tmp path with
    | some img => { s with s3 := mput s.s3 (b, k) img }
    | none => s
  | .record item =>
    { s with table := mput s.table item.ImageID item, now := s.now + 1 }

/-- Apply a list of effects in order. -/
def applyTrace (s : PState) (tr : List Effect) : PState := tr.foldl applyEffect s

/-- Errors a handler invocation can raise: the json.loads failure on an
unparseable body, the KeyError from a missing dict field, the TypeError
from indexing or iterating a value of the wrong shape, and the
boto3 download failure for an absent source object. -/
inductive Err where
  | jsonDecodeErr
  | keyError (name : String)
  | typeError (name : String)
  | objectNotFound (bucket key : String)
deriving DecidableEq

/-- Structured data as json.loads returns it. -/
inductive JVal where
  | jnull
  | jbool (b : Bool)
  | jnum (n : Int)
  | jstr (s : String)
  | jarr (xs : List JVal)
  | jobj (fields : List (String × JVal))

/-- First binding of a field name in a decoded object. -/
def jlookup : List (String × JVal) → String → Option JVal
  | [], _ => none
  | (k, v) :: rest, name => if k = name then some v else jlookup rest name

/-- Python dict indexing value[name]: KeyError when the field is absent,
TypeError when the value is not an object. -/
def getField (v : JVal) (name : String) : Except Err JVal :=
  match v with
  | .jobj fs =>
    match jlookup fs name with
    | some w => .ok w
    | none => .error (.keyError name)
  | _ => .error (.typeError name)

/-- Coerce a decoded value to the string the code reads out of it. -/
def asStr : JVal → Except Err String
  | .jstr s => .ok s
  | _ => .error (.typeError ("str"))

/-- One queued transport record as the trigger delivers it: its body is the
result of json.loads on the raw text, with none standing for text that is
not valid structured data. -/
structure SqsRecord where
  body : Option JVal

/-- The s3_event_body['Records'] access (image_processor.py lines 78-81):
the body must have parsed and must be an object carrying a Records array. -/
def getRecords (body : Option JVal) : Except Err (List JVal) :=
  match body with
  | none => .error .jsonDecodeErr
  | some v =>
    match getField v ("Records") with
    | .error e => .error e
    | .ok (.jarr xs) => .ok xs
    | .ok _ => .error (.typeError ("Records"))

/-- The field reads s3_record['s3']['bucket']['name'] and
s3_record['s3']['object']['key'] (image_processor.py lines 82-84). -/
def extractRecord (v : JVal) : Except Err (String × String) := do
  let s3v ← getField v ("s3")
  let bval ← getField (← getField s3v ("bucket")) "name"
  let b ← asStr bval
  let kval ← getField (← getField s3v ("object")) "key"
  let k ← asStr kval
  .ok (b, k)

/-- The per-object body of the handler loop (image_processor.py lines
84-127), as the list of effects it performs: URL-decode the key, skip
silently when the Loop Guard trips, otherwise download to /tmp, resize,
upload under the destination key built from the rstripped prefix and the
base name, and record the metadata item stamped with the current time.
A missing source object is the download_file failure. -/
def processS3Record (c : Config) (bucket rawKey : String) (s : PState) :
    Except Err (List Effect) :=
  let objectKey := unquotePlus rawKey
  if shouldSkip objectKey c.DESTINATION_PREF then .ok []
  else
    let fileName := basename objectKey
    match mget s.s3 (bucket, objectKey) with
    | none => .error (.objectNotFound bucket objectKey)
    | some img =>
      let resized := resizeImage img c.TARGET_WIDTH
      let destKey := rstripSlash c.DESTINATION_PREF ++ "/" ++ fileName
      let item : Item :=
        { ImageID := fileName, Status := "processed", SourceKey := objectKey,
          ProcessedKey := destKey, ProcessedSize := encodedSize resized,
          TargetWidth := c.TARGET_WIDTH, ProcessingTimestamp := s.now }
      .ok [.fetch bucket objectKey (downloadPathOf fileName),
           .resize (downloadPathOf fileName) (uploadPathOf fileName) c.TARGET_WIDTH,
           .publish (uploadPathOf fileName) bucket destKey,
           .record item]

/-- State reached by processing one object, when no error is raised. -/
def runS3Record (c : Config) (bucket rawKey : String) (s : PState) :
    Except Err PState :=
  match processS3Record c bucket rawKey s with
  | .error e => .error e
  | .ok tr => .ok (applyTrace s tr)

/-- The inner for loop over the decoded s3 records (image_processor.py
line 81): records are handled strictly in order; the first error stops the
loop, keeping the state and effects already produced. -/
def processS3List (c : Config) : List JVal → PState → PState × List Effect × Option Err
  | [], s => (s, [], none)
  | r :: rest, s =>
    match extractRecord r with
    | .error e => (s, [], some e)
    | .ok (b, k) =>
      match processS3Record c b k s with
      | .error e => (s, [], some e)
      | .ok tr =>
        match processS3List c rest (applyTrace s tr) with
        | (s', tr', e) => (s', tr ++ tr', e)

/-- Handling of one queued record: decode its body, then run the inner
loop (image_processor.py lines 78-81). -/
def handleSqs (c : Config) (r : SqsRecord) (s : PState) :
    PState × List Effect × Option Err :=
  match getRecords r.body with
  | .error e => (s, [], some e)
  | .ok rs => processS3List c rs s

/-- The outer loop of lambda_handler over event['Records']
(image_processor.py lines 74-135).  The except clause re-raises, so the
first error escapes the invocation with whatever state mutations were
already made; a some in the third component is the invocation failing,
none is the 200 return. -/
def lambdaHandler (c : Config) : List SqsRecord → PState → PState × List Effect × Option Err
  | [], s => (s, [], none)
  | r :: rest, s =>
    match handleSqs c r s with
    | (s', tr, some e) => (s', tr, some e)
    | (s', tr, none) =>
      match lambdaHandler c rest s' with
      | (s'', tr', e) => (s'', tr ++ tr', e)

lemma mget_mput_self {α β : Type} [DecidableEq α] (m : List (α × β)) (k : α) (v : β) :
    mget (mput m k v) k = some v := by
  simp [mget, mput]

lemma mget_filter_ne {α β : Type} [DecidableEq α] (m : List (α × β)) (k k' : α)
    (h : k' ≠ k) :
    mget (m.filter (fun p => decide (p.1 ≠ k))) k' = mget m k' := by
  induction m with
  | nil => rfl
  | cons a rest ih =>
    obtain ⟨ak, av⟩ := a
    by_cases hak : ak ≠ k
    · rw [show List.filter (fun p => decide (p.1 ≠ k)) ((ak, av) :: rest)
            = (ak, av) :: List.filter (fun p => decide (p.1 ≠ k)) rest from by
          simp [List.filter, hak]]
      by_cases hk' : k' = ak
      · simp [mget, hk']
      · rw [show mget ((ak, av) :: List.filter (fun p => decide (p.1 ≠ k)) rest) k'
              = mget (List.filter (fun p => decide (p.1 ≠ k)) rest) k' from by
            simp [mget, hk']]
        rw [show mget ((ak, av) :: rest) k' = mget rest k' from by simp [mget, hk']]
        exact ih
    · push_neg at hak
      subst hak
      rw [show List.filter (fun p => decide (p.1 ≠ ak)) ((ak, av) :: rest)
            = List.filter (fun p => decide (p.1 ≠ ak)) rest from by simp [List.filter]]
      rw [show mget ((ak, av) :: rest) k' = mget rest k' from by simp [mget, h]]
      exact ih

lemma mget_mput_ne {α β : Type} [DecidableEq α] (m : List (α × β)) (k k' : α) (v : β)
    (h : k' ≠ k) : mget (mput m k v) k' = mget m k' := by
  rw [show mput m k v = (k, v) :: m.filter (fun p => decide (p.1 ≠ k)) from rfl]
  rw [show mget ((k, v) :: m.filter (fun p => decide (p.1 ≠ k))) k'
        = mget (m.filter (fun p => decide (p.1 ≠ k))) k' from by simp [mget, h]]
  exact mget_filter_ne m k k' h

lemma countKey_filter_zero {α β : Type} [DecidableEq α] (m : List (α × β)) (k : α) :
    countKey (m.filter (fun p => decide (p.1 ≠ k))) k = 0 := by
  induction m with
  | nil => rfl
  | cons a rest ih =>
    obtain ⟨ak, av⟩ := a
    by_cases hak : ak ≠ k
    · rw [show List.filter (fun p => decide (p.1 ≠ k)) ((ak, av) :: rest)
            = (ak, av) :: List.filter (fun p => decide (p.1 ≠ k)) rest from by
          simp [List.filter, hak]]
      simp [countKey, List.filter, hak] at ih ⊢
    · push_neg at hak
      subst hak
      rw [show List.filter (fun p => decide (p.1 ≠ ak)) ((ak, av) :: rest)
            = List.filter (fun p => decide (p.1 ≠ ak)) rest from by simp [List.filter]]
      exact ih

lemma countKey_mput {α β : Type} [DecidableEq α] (m : List (α × β)) (k : α) (v : β) :
    countKey (mput m k v) k = 1 := by
  have h := countKey_filter_zero m k
  simp [countKey, mput, List.filter] at h ⊢

/-- The state reached by successfully processing one non-skipped object
whose source is stored: destination object published under the joined
destination key, metadata row upserted under the base name, both scratch
files written, clock advanced. -/
lemma runS3Record_ok (c : Config) (b rawKey : String) (s : PState) (img : Img)
    (hskip : shouldSkip (unquotePlus rawKey) c.DESTINATION_PREF = false)
    (hsrc : mget s.s3 (b, unquotePlus rawKey) = some img) :
    runS3Record c b rawKey s = .ok
      { s3 := mput s.s3
          (b, rstripSlash c.DESTINATION_PREF ++ "/" ++ basename (unquotePlus rawKey))
          (resizeImage img c.TARGET_WIDTH),
        table := mput s.table (basename (unquotePlus rawKey))
          { ImageID := basename (unquotePlus rawKey), Status := "processed",
            SourceKey := unquotePlus rawKey,
            ProcessedKey :=
              rstripSlash c.DESTINATION_PREF ++ "/" ++ basename (unquotePlus rawKey),
            ProcessedSize := encodedSize (resizeImage img c.TARGET_WIDTH),
            TargetWidth := c.TARGET_WIDTH, ProcessingTimestamp := s.now },
        tmp := mput (mput s.tmp (downloadPathOf (basename (unquotePlus rawKey))) img)
          (uploadPathOf (basename (unquotePlus rawKey)))
          (resizeImage img c.TARGET_WIDTH),
        now := s.now + 1 } := by
  rw [runS3Record]
  rw [show processS3Record c b rawKey s = .ok
        [.fetch b (unquotePlus rawKey) (downloadPathOf (basename (unquotePlus rawKey))),
         .resize (downloadPathOf (basename (unquotePlus rawKey)))
           (uploadPathOf (basename (unquotePlus rawKey))) c.TARGET_WIDTH,
         .publish (uploadPathOf (basename (unquotePlus rawKey))) b
           (rstripSlash c.DESTINATION_PREF ++ "/" ++ basename (unquotePlus rawKey)),
         .record
           { ImageID := basename (unquotePlus rawKey), Status := "processed",
             SourceKey := unquotePlus rawKey,
             ProcessedKey :=
               rstripSlash c.DESTINATION_PREF ++ "/" ++ basename (unquotePlus rawKey),
             ProcessedSize := encodedSize (resizeImage img c.TARGET_WIDTH),
             TargetWidth := c.TARGET_WIDTH, ProcessingTimestamp := s.now }] from by
      rw [processS3Record]
      rw [hskip]
      simp only [Bool.false_eq_true, if_false, hsrc]]
  simp only [applyTrace, List.foldl, applyEffect, hsrc, mget_mput_self]

/-
Concrete fixtures used by the witnesses: the spec's running example
(source key uploads/photo.JPG in container media, destination
processed/, target width 800) plus a basename-collision pair.
-/

/-- The example source image: 1000 x 600 pixels. -/
def img0 : Img := { width := 1000, height := 600, data := 7 }

/-- The example configuration of the spec scenario. -/
def cfg0 : Config :=
  { DESTINATION_PREF := "processed/", TARGET_WIDTH := 800,
    TABLE_NAME := "image-metadata" }

/-- Initial world holding the example source object. -/
def st0 : PState :=
  { s3 := [(("media", "uploads/photo.JPG"), img0)], table := [], tmp := [], now := 0 }

/-- A decoded storage-change record for one (bucket, key) pair. -/
def s3RecordJ (bucket key : String) : JVal :=
  .jobj [("s3", .jobj [("bucket", .jobj [("name", .jstr bucket)]),
                       ("object", .jobj [("key", .jstr key)])])]

/-- The storage-change envelope carrying one record, the shape S3 delivers
directly into the queue body. -/
def s3EventBody (bucket key : String) : JVal :=
  .jobj [("Records", .jarr [s3RecordJ bucket key])]

/-- A transport envelope (SNS style) whose Message field holds a further
stringified storage-change envelope: one extra unwrap level. -/
def snsEnvelope (msg : String) : JVal :=
  .jobj [("Type", .jstr ("Notification")), ("Message", .jstr msg)]

/-- A queued record whose body decoded to the example storage envelope. -/
def goodRec : SqsRecord := { body := some (s3EventBody ("media") "uploads/photo.JPG") }

/-- A queued record whose body is not valid structured data. -/
def badRec : SqsRecord := { body := none }

/-- The metadata row the example scenario writes. -/
def itemPhoto : Item :=
  { ImageID := "photo.JPG", Status := "processed", SourceKey := "uploads/photo.JPG",
    ProcessedKey := "processed/photo.JPG", ProcessedSize := 384007,
    TargetWidth := 800, ProcessingTimestamp := 0 }

/-- The effect trace of processing the example notification. -/
def trGood : List Effect :=
  [.fetch ("media") "uploads/photo.JPG" "/tmp/photo.JPG",
   .resize ("/tmp/photo.JPG") "/tmp/resized-photo.JPG" 800,
   .publish ("/tmp/resized-photo.JPG") "media" "processed/photo.JPG",
   .record itemPhoto]

/-- Environment with only DESTINATION_PREFIX set: both TARGET_WIDTH and
DYNAMODB_TABLE_NAME are absent. -/
def envTwMissing : String → Option String :=
  fun name => if name = "DESTINATION_PREFIX" then some ("processed/") else none

/-- Environment with only TARGET_WIDTH set. -/
def envTwOnly : String → Option String :=
  fun name => if name = "TARGET_WIDTH" then some ("800") else none

/-- First image of the basename-collision pair. -/
def imgA : Img := { width := 1000, height := 600, data := 1 }

/-- Second image of the basename-collision pair, different content. -/
def imgB : Img := { width := 900, height := 500, data := 2 }

/-- World holding two distinct source objects that share a base name. -/
def stAB : PState :=
  { s3 := [(("media", "a/photo.jpg"), imgA), (("media", "b/photo.jpg"), imgB)],
    table := [], tmp := [], now := 0 }

/-- C1: any error raised while processing any notification escapes the
invocation, aborting the remaining records of the batch, while the side
effects of every record fully processed earlier persist: a prefix that
runs clean followed by a failing record yields the failing record's error,
the accumulated state and effects of the prefix, and no trace of the
records that came after. -/
theorem batch_abort_persists (c : Config) (xs : List SqsRecord) (bad : SqsRecord)
    (rest : List SqsRecord) (s s₁ s₂ : PState) (tr tr₂ : List Effect) (e : Err)
    (h1 : lambdaHandler c xs s = (s₁, tr, none))
    (h2 : handleSqs c bad s₁ = (s₂, tr₂, some e)) :
    lambdaHandler c (xs ++ bad :: rest) s = (s₂, tr ++ tr₂, some e) := by
  induction xs generalizing s tr with
  | nil =>
    have h1' : ((s, ([] : List Effect), (none : Option Err))
        : PState × List Effect × Option Err) = (s₁, tr, none) := h1
    have hs : s = s₁ := congrArg Prod.fst h1'
    have htr : ([] : List Effect) = tr := congrArg (fun p => p.2.1) h1'
    subst hs
    subst htr
    simp only [List.nil_append, List.nil_append]
    show lambdaHandler c (bad :: rest) s = (s₂, tr₂, some e)
    simp only [lambdaHandler, h2]
  | cons r xs ih =>
    rcases hh : handleSqs c r s with ⟨s', tr', e?⟩
    cases e? with
    | some e' =>
      simp only [lambdaHandler, hh] at h1
      exact absurd (congrArg (fun p => p.2.2) h1) (by simp)
    | none =>
      simp only [lambdaHandler, hh] at h1
      rcases hx : lambdaHandler c xs s' with ⟨sx, trx, ex⟩
      rw [hx] at h1
      have hs : sx = s₁ := congrArg Prod.fst h1
      have htr : tr' ++ trx = tr := congrArg (fun p => p.2.1) h1
      have hex : ex = none := congrArg (fun p => p.2.2) h1
      subst hs
      subst hex
      have hrec := ih s' trx hx
      rw [← htr]
      simp only [List.cons_append, lambdaHandler, hh]
      rw [show xs.append (bad :: rest) = xs ++ bad :: rest from rfl, hrec]
      simp [List.append_assoc]

/-- C1 witness: the spec's batch example at concrete inputs.  A batch of
three records where the second fails decoding reports the decode failure,
keeps the first record's destination object and metadata row (its full
effect trace applied to the initial state), and never touches the third. -/
theorem batch_abort_persists_w :
    lambdaHandler cfg0 [goodRec, badRec, goodRec] st0
      = (applyTrace st0 trGood, trGood, some Err.jsonDecodeErr) := by
  have h := batch_abort_persists cfg0 [goodRec] badRec [goodRec] st0
    (applyTrace st0 trGood) (applyTrace st0 trGood) trGood [] Err.jsonDecodeErr rfl rfl
  simpa using h

/-- C2 counterexample: with both TARGET_WIDTH and DYNAMODB_TABLE_NAME
absent, startup fails with the KeyError for TARGET_WIDTH alone, raised by
os.environ['TARGET_WIDTH'] before the aggregate check runs; the error
text does not name DYNAMODB_TABLE_NAME, refuting the claim that one
aggregate error names every missing option. -/
theorem startup_missing_cex :
    startup envTwMissing = .error (.keyErr ("TARGET_WIDTH")) ∧
      containsStr (startupErrText (.keyErr ("TARGET_WIDTH"))) "DYNAMODB_TABLE_NAME" = false := by
  exact ⟨rfl, rfl⟩

/-- C2 as amended: when TARGET_WIDTH is present and parses, a
configuration missing both DYNAMODB_TABLE_NAME and DESTINATION_PREFIX
fails at startup, before any notification is read, with one aggregate
error naming both. -/
theorem startup_aggregate (env : String → Option String) (tw : String) (n : Int)
    (h1 : env ("TARGET_WIDTH") = some tw) (h2 : pyInt? tw = some n)
    (h3 : env ("DYNAMODB_TABLE_NAME") = none) (h4 : env ("DESTINATION_PREFIX") = none) :
    startup env = .error
      (.valueErr ("Missing environment variables: DYNAMODB_TABLE_NAME, DESTINATION_PREFIX")) := by
  simp only [startup, h1, h2, h3, h4]
  rfl

/-- C2 witness: the amended startup law at a concrete environment holding
only TARGET_WIDTH. -/
theorem startup_aggregate_w :
    startup envTwOnly = .error
      (.valueErr ("Missing environment variables: DYNAMODB_TABLE_NAME, DESTINATION_PREFIX")) :=
  startup_aggregate envTwOnly ("800") 800 rfl rfl rfl rfl

/-- C3: a notification is skipped, producing success with no effects at
all (no fetch, no resize, no publish, no metadata write), exactly when its
decoded key starts with the configured destination prefix; any other
successful outcome carries a nonempty effect trace and any failure is not
an ok result, so the equivalence characterises the Loop Guard.  Moreover a
skip is not a failure: the loop drops the skipped record and continues
with the remaining records on an unchanged state. -/
theorem loop_guard_skip_iff (c : Config) (bucket rawKey : String) (s : PState) :
    (processS3Record c bucket rawKey s = .ok [] ↔
      shouldSkip (unquotePlus rawKey) c.DESTINATION_PREF = true) ∧
    (shouldSkip (unquotePlus rawKey) c.DESTINATION_PREF = true →
      ∀ rest : List JVal,
        processS3List c (s3RecordJ bucket rawKey :: rest) s = processS3List c rest s) := by
  constructor
  · constructor
    · intro h
      cases hsk : shouldSkip (unquotePlus rawKey) c.DESTINATION_PREF with
      | true => rfl
      | false =>
        rw [processS3Record, hsk] at h
        simp only [Bool.false_eq_true, if_false] at h
        cases hm : mget s.s3 (bucket, unquotePlus rawKey) with
        | none => rw [hm] at h; exact absurd h (by simp)
        | some img => rw [hm] at h; exact absurd h (by simp)
    · intro h
      rw [processS3Record, h]
      rfl
  · intro h rest
    have hrec : processS3Record c bucket rawKey s = .ok [] := by
      rw [processS3Record, h]
      rfl
    have hex : extractRecord (s3RecordJ bucket rawKey) = .ok (bucket, rawKey) := rfl
    rw [processS3List, hex]
    simp only [hrec]
    rw [show applyTrace s [] = s from rfl]
    rcases hx : processS3List c rest s with ⟨sx, trx, ex⟩
    simp

/-- C3 witness: with destination prefix processed/, the already-processed
key processed/old.png is skipped with no effects, and the loop on a batch
holding only that record finishes exactly as the empty loop does. -/
theorem loop_guard_skip_iff_w :
    processS3Record cfg0 ("media") ("processed/old.png") st0 = .ok [] ∧
      processS3List cfg0 [s3RecordJ ("media") ("processed/old.png")] st0
        = processS3List cfg0 [] st0 :=
  ⟨(loop_guard_skip_iff cfg0 ("media") ("processed/old.png") st0).1.mpr rfl,
   (loop_guard_skip_iff cfg0 ("media") ("processed/old.png") st0).2 rfl []⟩

/-- C4 counterexample: a 100 x 2000 image with target width 800 satisfies
W <= T yet its transform has width 40, not 100: thumbnail's box also
bounds the height, so W <= T alone does not give pass-through. -/
theorem pass_through_cex :
    (100 : Nat) ≤ 800 ∧
      (resizeImage { width := 100, height := 2000, data := 0 } 800).width ≠ 100 := by
  decide

/-- C4 as amended: an image already inside the target box on both sides
(W <= T and H <= T) passes through with unchanged dimensions, though it is
still re-encoded; W <= T alone does not suffice because the thumbnail box
(T, T) bounds the height as well. -/
theorem pass_through_box (img : Img) (T : Nat) (hW : img.width ≤ T)
    (hH : img.height ≤ T) : resizeImage img (T : Int) = img := by
  have h : thumbnailSize img.width img.height T = (img.width, img.height) := by
    rw [thumbnailSize, if_pos ⟨hW, hH⟩]
  obtain ⟨W, H, d⟩ := img
  simp only [resizeImage, show ((T : Int)).toNat = T from rfl, h]

/-- C4 witness: a 3 x 2 image is untouched by target width 5. -/
theorem pass_through_box_w :
    resizeImage { width := 3, height := 2, data := 5 } ((5 : Nat) : Int)
      = { width := 3, height := 2, data := 5 } :=
  pass_through_box { width := 3, height := 2, data := 5 } 5 (by decide) (by decide)

/-- C5 counterexample: a transport envelope whose body wraps a further
stringified storage-change envelope (one extra unwrap level) is rejected
with the KeyError on Records: the decoder does not accept this second
shape, refuting the claim that both shapes are accepted. -/
theorem decoder_shape_cex :
    getRecords (some (snsEnvelope ("\x7b\"Records\": []\x7d")))
      = .error (.keyError ("Records")) := rfl

/-- C5 as amended: the decoder accepts exactly one shape, the
storage-change envelope embedded directly as the parsed transport body; a
body that is not valid structured data fails with the decode error, a
transport envelope carrying the storage envelope one level deeper fails
with the KeyError on Records, and object keys are URL-component-decoded
(plus becomes space) before any further use, so an encoded and a decoded
spelling of the same key are processed identically. -/
theorem decoder_amended :
    (∀ b k : String, getRecords (some (s3EventBody b k)) = .ok [s3RecordJ b k]) ∧
    (∀ b k : String, extractRecord (s3RecordJ b k) = .ok (b, k)) ∧
    getRecords none = .error .jsonDecodeErr ∧
    (∀ m : String, getRecords (some (snsEnvelope m)) = .error (.keyError ("Records"))) ∧
    unquotePlus ("my+photo.jpg") = "my photo.jpg" ∧
    (∀ (c : Config) (b : String) (s : PState),
      processS3Record c b ("my+photo.jpg") s = processS3Record c b ("my photo.jpg") s) := by
  exact ⟨fun b k => rfl, fun b k => rfl, rfl, fun m => rfl, rfl, fun c b s => rfl⟩

/-- C6: a processed notification publishes under the destination key built
by joining the rstripped destination prefix, one slash, and the base name
of the decoded source key, and upserts the metadata row keyed by the base
name with status processed, the source and destination keys, the output
size, the target width, and the write-time timestamp. -/
theorem destination_key_row (c : Config) (b rawKey : String) (s : PState) (img : Img)
    (hskip : shouldSkip (unquotePlus rawKey) c.DESTINATION_PREF = false)
    (hsrc : mget s.s3 (b, unquotePlus rawKey) = some img) :
    ∃ s', runS3Record c b rawKey s = .ok s' ∧
      mget s'.table (basename (unquotePlus rawKey)) = some
        { ImageID := basename (unquotePlus rawKey), Status := "processed",
          SourceKey := unquotePlus rawKey,
          ProcessedKey :=
            rstripSlash c.DESTINATION_PREF ++ "/" ++ basename (unquotePlus rawKey),
          ProcessedSize := encodedSize (resizeImage img c.TARGET_WIDTH),
          TargetWidth := c.TARGET_WIDTH, ProcessingTimestamp := s.now } ∧
      mget s'.s3
          (b, rstripSlash c.DESTINATION_PREF ++ "/" ++ basename (unquotePlus rawKey))
        = some (resizeImage img c.TARGET_WIDTH) := by
  refine ⟨_, runS3Record_ok c b rawKey s img hskip hsrc, ?_, ?_⟩
  · exact mget_mput_self _ _ _
  · exact mget_mput_self _ _ _

/-- C6 witness: the spec's example scenario.  Source key uploads/photo.JPG
in container media with destination prefix processed/ and target width 800
yields destination key processed/photo.JPG and the expected metadata row. -/
theorem destination_key_row_w :
    ∃ s', runS3Record cfg0 ("media") "uploads/photo.JPG" st0 = .ok s' ∧
      mget s'.table ("photo.JPG") = some itemPhoto ∧
      mget s'.s3 ("media", "processed/photo.JPG") = some (resizeImage img0 800) := by
  exact destination_key_row cfg0 ("media") "uploads/photo.JPG" st0 img0 rfl rfl

/-- C7: processing the same notification twice leaves exactly one metadata
row under the object's base name, the natural key, with all fields those
of the second run (in particular its later timestamp), and the destination
object holds the latest transform of the source. -/
theorem idempotent_redelivery (c : Config) (b rawKey : String) (s : PState) (img : Img)
    (hskip : shouldSkip (unquotePlus rawKey) c.DESTINATION_PREF = false)
    (hsrc : mget s.s3 (b, unquotePlus rawKey) = some img)
    (hne : rstripSlash c.DESTINATION_PREF ++ "/" ++ basename (unquotePlus rawKey)
      ≠ unquotePlus rawKey) :
    ∃ s₁ s₂, runS3Record c b rawKey s = .ok s₁ ∧ runS3Record c b rawKey s₁ = .ok s₂ ∧
      countKey s₂.table (basename (unquotePlus rawKey)) = 1 ∧
      mget s₂.table (basename (unquotePlus rawKey)) = some
        { ImageID := basename (unquotePlus rawKey), Status := "processed",
          SourceKey := unquotePlus rawKey,
          ProcessedKey :=
            rstripSlash c.DESTINATION_PREF ++ "/" ++ basename (unquotePlus rawKey),
          ProcessedSize := encodedSize (resizeImage img c.TARGET_WIDTH),
          TargetWidth := c.TARGET_WIDTH, ProcessingTimestamp := s.now + 1 } ∧
      mget s₂.s3
          (b, rstripSlash c.DESTINATION_PREF ++ "/" ++ basename (unquotePlus rawKey))
        = some (resizeImage img c.TARGET_WIDTH) := by
  have h1 := runS3Record_ok c b rawKey s img hskip hsrc
  have hkey : ((b, unquotePlus rawKey) : String × String)
      ≠ (b, rstripSlash c.DESTINATION_PREF ++ "/" ++ basename (unquotePlus rawKey)) := by
    intro hEq
    exact hne ((Prod.mk.inj hEq).2).symm
  have hsrc2 : mget (mput s.s3
      (b, rstripSlash c.DESTINATION_PREF ++ "/" ++ basename (unquotePlus rawKey))
      (resizeImage img c.TARGET_WIDTH)) (b, unquotePlus rawKey) = some img := by
    rw [mget_mput_ne _ _ _ _ hkey]
    exact hsrc
  have h2 := runS3Record_ok c b rawKey
    { s3 := mput s.s3
        (b, rstripSlash c.DESTINATION_PREF ++ "/" ++ basename (unquotePlus rawKey))
        (resizeImage img c.TARGET_WIDTH),
      table := mput s.table (basename (unquotePlus rawKey))
        { ImageID := basename (unquotePlus rawKey), Status := "processed",
          SourceKey := unquotePlus rawKey,
          ProcessedKey :=
            rstripSlash c.DESTINATION_PREF ++ "/" ++ basename (unquotePlus rawKey),
          ProcessedSize := encodedSize (resizeImage img c.TARGET_WIDTH),
          TargetWidth := c.TARGET_WIDTH, ProcessingTimestamp := s.now },
      tmp := mput (mput s.tmp (downloadPathOf (basename (unquotePlus rawKey))) img)
        (uploadPathOf (basename (unquotePlus rawKey)))
        (resizeImage img c.TARGET_WIDTH),
      now := s.now + 1 } img hskip hsrc2
  refine ⟨_, _, h1, h2, ?_, ?_, ?_⟩
  · exact countKey_mput _ _ _
  · exact mget_mput_self _ _ _
  · exact mget_mput_self _ _ _

/-- C7 witness: redelivering the example notification leaves one row for
photo.JPG carrying the second run's timestamp, and the destination object
holds the latest transform. -/
theorem idempotent_redelivery_w :
    ∃ s₁ s₂, runS3Record cfg0 ("media") "uploads/photo.JPG" st0 = .ok s₁ ∧
      runS3Record cfg0 ("media") "uploads/photo.JPG" s₁ = .ok s₂ ∧
      countKey s₂.table ("photo.JPG") = 1 ∧
      mget s₂.table ("photo.JPG") = some
        { ImageID := "photo.JPG", Status := "processed",
          SourceKey := "uploads/photo.JPG", ProcessedKey := "processed/photo.JPG",
          ProcessedSize := 384007, TargetWidth := 800, ProcessingTimestamp := 1 } ∧
      mget s₂.s3 ("media", "processed/photo.JPG") = some (resizeImage img0 800) := by
  exact idempotent_redelivery cfg0 ("media") "uploads/photo.JPG" st0 img0 rfl rfl
    (by decide)

/-- C8: whenever the metadata write of a row with status processed occurs,
the destination object already exists at that row's destination key in the
source's container: in every successful trace the publish effect precedes
the record effect, so the state at the moment of the write holds the
object. -/
theorem record_implies_published (c : Config) (b rawKey : String) (s : PState)
    (tr : List Effect) (i : Nat) (item : Item)
    (h : processS3Record c b rawKey s = .ok tr)
    (hit : tr.get? i = some (.record item)) :
    item.Status = "processed" ∧
      ∃ imgD, mget (applyTrace s (tr.take i)).s3 (b, item.ProcessedKey) = some imgD := by
  rw [processS3Record] at h
  cases hsk : shouldSkip (unquotePlus rawKey) c.DESTINATION_PREF with
  | true =>
    rw [hsk] at h
    simp only [if_true] at h
    injection h with h'
    subst h'
    simp at hit
  | false =>
    rw [hsk] at h
    simp only [Bool.false_eq_true, if_false] at h
    cases hm : mget s.s3 (b, unquotePlus rawKey) with
    | none => rw [hm] at h; exact absurd h (by simp)
    | some img =>
      rw [hm] at h
      injection h with h'
      subst h'
      rcases i with _ | _ | _ | _ | i
      · simp [List.get?] at hit
      · simp [List.get?] at hit
      · simp [List.get?] at hit
      · simp only [List.get?, Option.some.injEq, Effect.record.injEq] at hit
        subst hit
        refine ⟨rfl, resizeImage img c.TARGET_WIDTH, ?_⟩
        simp only [List.take, applyTrace, List.foldl, applyEffect, hm, mget_mput_self]
      · simp [List.get?] at hit

/-- C8 witness: in the example run the record effect sits at index 3 of
the trace, and the state reached by the three effects before it already
holds an object at processed/photo.JPG in the media container. -/
theorem record_implies_published_w :
    itemPhoto.Status = "processed" ∧
      ∃ imgD, mget (applyTrace st0 (trGood.take 3)).s3 ("media", itemPhoto.ProcessedKey)
        = some imgD :=
  record_implies_published cfg0 ("media") "uploads/photo.JPG" st0 trGood 3 itemPhoto rfl rfl

/-- C9 counterexample: at a 10 x 7 source with target width 4 the exact
proportional height is 2.8; the transform keeps 3, the nearer value by
aspect-ratio distance, so the height is not rounded down as the claim
states (floor scaling would give 4 * 7 / 10 = 2). -/
theorem aspect_law_cex :
    (4 : Nat) < 10 ∧
      (resizeImage { width := 10, height := 7, data := 0 } ((4 : Nat) : Int)).height
        ≠ 4 * 7 / 10 := by
  decide

/-- C9 as amended: for a transform with target width strictly below the
source width, the output width never exceeds the target, and the output
dimensions are the exact proportional scaling with at most one pixel of
rounding on the non-pinned side (rounded to the nearer of floor and
ceiling by aspect distance, not always down): either the width is pinned
to the target and the height is within one pixel of the proportional
value (stated cross-multiplied by the source width), or, for images
taller than wide, the height is pinned and the width is within one pixel
of the proportional value. -/
theorem aspect_law (img : Img) (T : Nat) (hW : 1 ≤ img.width) (hH : 1 ≤ img.height)
    (hT : 1 ≤ T) (hTW : T < img.width) :
    (resizeImage img (T : Int)).width ≤ T ∧
      (((resizeImage img (T : Int)).width = T ∧
          |((resizeImage img (T : Int)).height : Int) * img.width
            - (T : Int) * img.height| ≤ (img.width : Int)) ∨
       ((resizeImage img (T : Int)).height = T ∧
          |((resizeImage img (T : Int)).width : Int) * img.height
            - (T : Int) * img.width| ≤ (img.height : Int))) := by
  have h := thumb_aspect img.width img.height T hW hH hT hTW
  simp only [resizeImage, show ((T : Int)).toNat = T from rfl]
  exact h

/-- C9 witness: a 10 x 7 image resized to target width 4 comes out 4 x 3,
within the stated aspect bound. -/
theorem aspect_law_w :
    (resizeImage { width := 10, height := 7, data := 0 } ((4 : Nat) : Int)).width ≤ 4 ∧
      (((resizeImage { width := 10, height := 7, data := 0 } ((4 : Nat) : Int)).width = 4 ∧
          |((resizeImage { width := 10, height := 7, data := 0 } ((4 : Nat) : Int)).height : Int) * 10
            - (4 : Int) * 7| ≤ (10 : Int)) ∨
       ((resizeImage { width := 10, height := 7, data := 0 } ((4 : Nat) : Int)).height = 4 ∧
          |((resizeImage { width := 10, height := 7, data := 0 } ((4 : Nat) : Int)).width : Int) * 7
            - (4 : Int) * 10| ≤ (7 : Int))) := by
  have h := aspect_law { width := 10, height := 7, data := 0 } 4
    (by decide) (by decide) (by decide) (by decide)
  simpa using h

/-- C10: two notifications whose decoded source keys differ but share a
base name map to the same scratch paths, the same destination key, and the
same metadata-row key, so processing the second silently overwrites the
first's destination object and metadata row: afterwards a single row
remains under the shared base name, carrying the second source key, and
the destination object is the second source's transform. -/
theorem basename_collision (c : Config) (b k₁ k₂ : String) (s : PState)
    (img₁ img₂ : Img)
    (hsk₁ : shouldSkip (unquotePlus k₁) c.DESTINATION_PREF = false)
    (hsk₂ : shouldSkip (unquotePlus k₂) c.DESTINATION_PREF = false)
    (hfn : basename (unquotePlus k₁) = basename (unquotePlus k₂))
    (hsrc₁ : mget s.s3 (b, unquotePlus k₁) = some img₁)
    (hsrc₂ : mget s.s3 (b, unquotePlus k₂) = some img₂)
    (hne : rstripSlash c.DESTINATION_PREF ++ "/" ++ basename (unquotePlus k₂)
      ≠ unquotePlus k₂) :
    downloadPathOf (basename (unquotePlus k₁))
        = downloadPathOf (basename (unquotePlus k₂)) ∧
    uploadPathOf (basename (unquotePlus k₁))
        = uploadPathOf (basename (unquotePlus k₂)) ∧
    rstripSlash c.DESTINATION_PREF ++ "/" ++ basename (unquotePlus k₁)
        = rstripSlash c.DESTINATION_PREF ++ "/" ++ basename (unquotePlus k₂) ∧
    ∃ s₁ s₂, runS3Record c b k₁ s = .ok s₁ ∧ runS3Record c b k₂ s₁ = .ok s₂ ∧
      countKey s₂.table (basename (unquotePlus k₂)) = 1 ∧
      mget s₂.table (basename (unquotePlus k₂)) = some
        { ImageID := basename (unquotePlus k₂), Status := "processed",
          SourceKey := unquotePlus k₂,
          ProcessedKey :=
            rstripSlash c.DESTINATION_PREF ++ "/" ++ basename (unquotePlus k₂),
          ProcessedSize := encodedSize (resizeImage img₂ c.TARGET_WIDTH),
          TargetWidth := c.TARGET_WIDTH, ProcessingTimestamp := s.now + 1 } ∧
      mget s₂.s3
          (b, rstripSlash c.DESTINATION_PREF ++ "/" ++ basename (unquotePlus k₂))
        = some (resizeImage img₂ c.TARGET_WIDTH) := by
  refine ⟨by rw [hfn], by rw [hfn], by rw [hfn], ?_⟩
  have h1 := runS3Record_ok c b k₁ s img₁ hsk₁ hsrc₁
  have hkey : ((b, unquotePlus k₂) : String × String)
      ≠ (b, rstripSlash c.DESTINATION_PREF ++ "/" ++ basename (unquotePlus k₁)) := by
    intro hEq
    apply hne
    rw [← hfn]
    exact ((Prod.mk.inj hEq).2).symm
  have hsrc2 : mget (mput s.s3
      (b, rstripSlash c.DESTINATION_PREF ++ "/" ++ basename (unquotePlus k₁))
      (resizeImage img₁ c.TARGET_WIDTH)) (b, unquotePlus k₂) = some img₂ := by
    rw [mget_mput_ne _ _ _ _ hkey]
    exact hsrc₂
  have h2 := runS3Record_ok c b k₂
    { s3 := mput s.s3
        (b, rstripSlash c.DESTINATION_PREF ++ "/" ++ basename (unquotePlus k₁))
        (resizeImage img₁ c.TARGET_WIDTH),
      table := mput s.table (basename (unquotePlus k₁))
        { ImageID := basename (unquotePlus k₁), Status := "processed",
          SourceKey := unquotePlus k₁,
          ProcessedKey :=
            rstripSlash c.DESTINATION_PREF ++ "/" ++ basename (unquotePlus k₁),
          ProcessedSize := encodedSize (resizeImage img₁ c.TARGET_WIDTH),
          TargetWidth := c.TARGET_WIDTH, ProcessingTimestamp := s.now },
      tmp := mput (mput s.tmp (downloadPathOf (basename (unquotePlus k₁))) img₁)
        (uploadPathOf (basename (unquotePlus k₁)))
        (resizeImage img₁ c.TARGET_WIDTH),
      now := s.now + 1 } img₂ hsk₂ hsrc2
  refine ⟨_, _, h1, h2, ?_, ?_, ?_⟩
  · exact countKey_mput _ _ _
  · exact mget_mput_self _ _ _
  · exact mget_mput_self _ _ _

/-- C10 witness: a/photo.jpg and b/photo.jpg share the scratch paths and
the destination key processed/photo.jpg; after processing both, one row
remains under photo.jpg recording the second source key, and the
destination object is the second image's transform. -/
theorem basename_collision_w :
    downloadPathOf (basename (unquotePlus ("a/photo.jpg")))
        = downloadPathOf (basename (unquotePlus ("b/photo.jpg"))) ∧
    uploadPathOf (basename (unquotePlus ("a/photo.jpg")))
        = uploadPathOf (basename (unquotePlus ("b/photo.jpg"))) ∧
    rstripSlash cfg0.DESTINATION_PREF ++ "/" ++ basename (unquotePlus ("a/photo.jpg"))
        = rstripSlash cfg0.DESTINATION_PREF ++ "/" ++ basename (unquotePlus ("b/photo.jpg")) ∧
    ∃ s₁ s₂, runS3Record cfg0 ("media") "a/photo.jpg" stAB = .ok s₁ ∧
      runS3Record cfg0 ("media") "b/photo.jpg" s₁ = .ok s₂ ∧
      countKey s₂.table ("photo.jpg") = 1 ∧
      mget s₂.table ("photo.jpg") = some
        { ImageID := "photo.jpg", Status := "processed", SourceKey := "b/photo.jpg",
          ProcessedKey := "processed/photo.jpg",
          ProcessedSize := encodedSize (resizeImage imgB 800),
          TargetWidth := 800, ProcessingTimestamp := 1 } ∧
      mget s₂.s3 ("media", "processed/photo.jpg") = some (resizeImage imgB 800) := by
  exact basename_collision cfg0 ("media") "a/photo.jpg" "b/photo.jpg" stAB imgA imgB
    rfl rfl rfl rfl rfl (by decide)

end ImgPipe
